import Mathlib

/-!
# Playback session wrapper over an MPEG-1 decoder (`api.h`)

A shallow embedding of the session object of `api.h`: construction, the
per-frame decode step, the frame-ready and audio-ready callbacks, the
transport controls and destruction.

Conventions of the embedding.

* Wall-clock and stream times (`double` in C) are exact rationals.
* C `int` arithmetic is exact arithmetic followed by two's-complement
  reduction to 32 bits (`wrap_int`).
* The decoder library, the texture layer, the allocator and the audio mixer
  are outside the repository.  Every call into them is recorded, in program
  order, as a `Call`; what the decoder does inside `plm_decode` and
  `plm_seek` and whether a file opens are fields of an `Engine`, over which
  the theorems quantify.
* A `video_t` value is a live session: its decoder handle is the decoder
  state itself, so the never-observed moment between `*v = zero` and
  `v->plm = plm` is not a separate state.
-/

namespace VideoMpg

/-! ## C integers -/

/-- Largest value of a 32-bit C `int`. -/
def INT_MAX : Int := 2147483647

/-- Smallest value of a 32-bit C `int`. -/
def INT_MIN : Int := -2147483648

/-- Two's-complement reduction of an exact integer to a 32-bit C `int`. -/
def wrap_int (x : Int) : Int := (x + 2147483648) % 4294967296 - 2147483648

/-- C `a + b` on `int`. -/
def int_add (a b : Int) : Int := wrap_int (a + b)

/-- C `a * b` on `int`. -/
def int_mul (a b : Int) : Int := wrap_int (a * b)

/-- C `a & b` on `int`. -/
def int_and (a b : Int) : Int := Int.land a b

/-- C `~a` on `int`. -/
def int_not (a : Int) : Int := Int.lnot a

/-! ## `enum VIDEO_FLAGS` -/

/-- Planar output, the default. -/
def VIDEO_YCBCR : Int := 0

/-- Packed RGB output. -/
def VIDEO_RGB : Int := 2

/-- Audio enabled, the default. -/
def VIDEO_AUDIO : Int := 0

/-- Audio disabled. -/
def VIDEO_NO_AUDIO : Int := 4

/-- Loop at the end of the stream. -/
def VIDEO_LOOP : Int := 8

/-! ## External data types, as far as `api.h` reads them -/

/-- Texture record of the texture layer: the fields `api.h` reads
(`id`, `w`, `h`, `n`, `flags`). -/
structure texture_t where
  id : Nat
  w : Int
  h : Int
  n : Int
  flags : Int
deriving DecidableEq, Repr

/-- The all-zero texture record (`{0}`). -/
def texture_t.zero : texture_t := { id := 0, w := 0, h := 0, n := 0, flags := 0 }

/-- One decoded plane: `plm_plane_t`. -/
structure plm_plane_t where
  width : Nat
  height : Nat
  data : List Nat
deriving DecidableEq, Repr

/-- One decoded frame: `plm_frame_t`. -/
structure plm_frame_t where
  time : ℚ
  width : Nat
  height : Nat
  y : plm_plane_t
  cr : plm_plane_t
  cb : plm_plane_t
deriving DecidableEq, Repr

/-- One decoded batch of audio samples: `plm_samples_t`. -/
structure plm_samples_t where
  time : ℚ
  count : Nat
  interleaved : List ℚ
deriving DecidableEq, Repr

/-- Decoder state as far as it is visible through the accessors and setters
that `api.h` calls. -/
structure plm_t where
  width : Int
  height : Int
  framerate : ℚ
  samplerate : ℚ
  duration : ℚ
  time : ℚ
  has_ended : Int
  loop : Int
  audio_enabled : Bool
  audio_stream : Int
  video_decode_callback : Bool
  audio_decode_callback : Bool
deriving DecidableEq, Repr

/-- What the decoder hands to a callback while `plm_decode` runs. -/
inductive plm_event where
  | video (frame : plm_frame_t)
  | audio (samples : plm_samples_t)
deriving DecidableEq, Repr

/-- Texture units named by the frame-ready callback. -/
inductive GLenum where
  | GL_TEXTURE0
  | GL_TEXTURE1
  | GL_TEXTURE2
deriving DecidableEq, Repr

/-- The parts of the surrounding engine and decoder library that are not in
the repository: build switches and constants, and the decoder's behaviour. -/
structure Engine where
  HAS_AUDIO : Bool
  TEXTURE_R : Int
  plm_create_with_file : String → Option plm_t
  plm_decode : plm_t → ℚ → plm_t × List plm_event
  plm_seek : plm_t → ℚ → Bool → plm_t

/-- A call that leaves `api.h`, with its arguments (and, for the allocating
calls, the handle it returned). -/
inductive Call where
  | plm_create_with_file (filename : String) (opened : Bool)
  | die (filename : String)
  | MALLOC
  | FREE
  | texture_create (w h n : Int) (flags : Int) (id : Nat)
  | texture_destroy (id : Nat)
  | REALLOC (ptr : Nat) (size : Int) (result : Nat)
  | plm_set_loop (loop : Int)
  | plm_set_video_decode_callback
  | plm_set_audio_enabled (enabled : Bool)
  | plm_set_audio_stream (stream : Int)
  | plm_set_audio_decode_callback
  | PRINTF (filename : String) (w h n : Int) (fps rate : ℚ)
  | plm_decode (seconds : ℚ)
  | plm_seek (time : ℚ) (seek_exact : Bool)
  | plm_destroy
  | audio_queue (samples : Option (List ℚ)) (count : Nat)
  | audio_queue_clear
  | glActiveTexture (unit : GLenum)
  | glBindTexture (texture : Nat)
  | glTexImage2D (width height : Nat) (data : List Nat)
  | plm_frame_to_rgb (frame : plm_frame_t) (dest : Nat) (stride : Int)
  | texture_update (id : Nat) (w h n : Int) (pixels : Nat) (flags : Int)
deriving DecidableEq, Repr

/-! ## The session -/

/-- The `struct video_t`.  `surface` is a pointer, `0` being `NULL`; the anonymous
union aliases `textureY`, `textureCb`, `textureCr` with `textures[3]`. -/
structure video_t where
  plm : plm_t
  previous_time : ℚ
  paused : Bool
  has_ycbcr : Bool
  has_audio : Bool
  textureY : texture_t
  textureCb : texture_t
  textureCr : texture_t
  surface : Nat
  texture : texture_t
deriving DecidableEq, Repr

/-- The session right after `*v = zero`, holding decoder `plm`. -/
def video_t.zero (plm : plm_t) : video_t :=
  { plm := plm, previous_time := 0, paused := false, has_ycbcr := false,
    has_audio := false, textureY := texture_t.zero, textureCb := texture_t.zero,
    textureCr := texture_t.zero, surface := 0, texture := texture_t.zero }

/-- Address of the texture field that `video_decode` and `video_textures`
return: `&v->textureY` or `&v->texture`. -/
inductive texture_ref where
  | textureY
  | texture
deriving DecidableEq, Repr

/-- Result of an operation on a session: the returned value, the session
afterwards and the external calls made, in order. -/
structure Ran (α : Type) where
  ret : α
  v : video_t
  calls : List Call

/-! ## Engine services used by `api.h` -/

/-- Modelled from the spec: `clampf`, the engine's clamp helper, is not part
of the repository; the spec says of its use in `video_seek` that it "clamps
target into [0, duration()]". -/
def clampf (x lo hi : ℚ) : ℚ :=
  if x < lo then lo else if hi < x then hi else x

/-- Modelled from the spec: `texture_create` of the texture layer ("create
... by dimensions and pixel format").  It hands out the handle after `fresh`
and a record of the requested dimensions, channel count and flags. -/
def texture_create (w h n flags : Int) (fresh : Nat) : texture_t × Call :=
  ({ id := fresh + 1, w := w, h := h, n := n, flags := flags },
   Call.texture_create w h n flags (fresh + 1))

/-- Modelled from the spec: `REALLOC` of the engine's allocator.  A non-zero
size yields the block after `fresh`; size zero releases `ptr` and yields
`NULL`. -/
def REALLOC (ptr : Nat) (size : Int) (fresh : Nat) : Nat × Call :=
  let result := if size = 0 then 0 else fresh + 1
  (result, Call.REALLOC ptr size result)

/-! ## Callbacks -/

/-- Source `mpeg_update_texture`: select the unit, bind the texture, replace its
image by the plane. -/
def mpeg_update_texture (unit : GLenum) (texture : Nat) (plane : plm_plane_t) :
    List Call :=
  [Call.glActiveTexture unit,
   Call.glBindTexture texture,
   Call.glTexImage2D plane.width plane.height plane.data]

/-- Source `mpeg_video_callback`: the frame-ready callback.  It never writes to the
session, so only its calls are returned. -/
def mpeg_video_callback (frame : plm_frame_t) (v : video_t) : List Call :=
  if v.paused then []
  else if v.has_ycbcr then
    mpeg_update_texture GLenum.GL_TEXTURE0 v.textureY.id frame.y ++
    mpeg_update_texture GLenum.GL_TEXTURE1 v.textureCb.id frame.cb ++
    mpeg_update_texture GLenum.GL_TEXTURE2 v.textureCr.id frame.cr
  else
    [Call.plm_frame_to_rgb frame v.surface (int_mul v.texture.w 3),
     Call.texture_update v.texture.id v.texture.w v.texture.h v.texture.n
       v.surface v.texture.flags]

/-- Source `mpeg_audio_callback`: the audio-ready callback. -/
def mpeg_audio_callback (E : Engine) (samples : plm_samples_t) (v : video_t) :
    List Call :=
  if Engine.HAS_AUDIO E then
    [Call.audio_queue (if v.paused then none else some samples.interleaved)
       samples.count]
  else []

/-- Delivery of one decoder event to the callback registered for it. -/
def deliver (E : Engine) (v : video_t) : plm_event → List Call
  | plm_event.video frame =>
      if v.plm.video_decode_callback then mpeg_video_callback frame v else []
  | plm_event.audio samples =>
      if v.plm.audio_decode_callback then mpeg_audio_callback E samples v else []

/-! ## Operations -/

/-- Source `video`: open `filename` and build the session.  `fresh` is the last
handle the allocators have given out.  Returns `none` (after `die`) when the
file does not open. -/
def video (E : Engine) (filename : String) (flags : Int) (fresh : Nat) :
    Option video_t × List Call :=
  match E.plm_create_with_file filename with
  | none => (none, [Call.plm_create_with_file filename false, Call.die filename])
  | some plm =>
    let w := plm.width
    let h := plm.height
    let fps := plm.framerate
    let rate := plm.samplerate
    let v := video_t.zero plm
    let v := { v with has_ycbcr := if int_and flags VIDEO_RGB ≠ 0 then false else true }
    let (v, created) :=
      if v.has_ycbcr then
        let y := texture_create w h 1 (Engine.TEXTURE_R E) fresh
        let cb := texture_create w h 1 (Engine.TEXTURE_R E) (fresh + 1)
        let cr := texture_create w h 1 (Engine.TEXTURE_R E) (fresh + 2)
        ({ v with textureY := y.1, textureCb := cb.1, textureCr := cr.1 },
         [y.2, cb.2, cr.2])
      else
        let w16 := int_and (int_add w 15) (int_not 15)
        let h16 := int_and (int_add h 15) (int_not 15)
        let t := texture_create w16 h16 3 0 fresh
        let s := REALLOC v.surface (int_mul (int_mul w16 h16) 3) (fresh + 1)
        ({ v with texture := t.1, surface := s.1 }, [t.2, s.2])
    let v := { v with has_audio :=
      if Engine.HAS_AUDIO E then (if int_and flags VIDEO_NO_AUDIO ≠ 0 then false else true)
      else false }
    let loop := int_and flags VIDEO_LOOP
    let v := { v with plm := { v.plm with loop := loop, video_decode_callback := true } }
    let (v, audio) :=
      if v.has_audio then
        ({ v with plm := { v.plm with audio_enabled := true, audio_stream := 0,
                                      audio_decode_callback := true } },
         [Call.plm_set_audio_enabled true, Call.plm_set_audio_stream 0,
          Call.plm_set_audio_decode_callback])
      else (v, [])
    (some v,
     [Call.plm_create_with_file filename true, Call.MALLOC] ++ created ++
     [Call.plm_set_loop loop, Call.plm_set_video_decode_callback] ++ audio ++
     [Call.PRINTF filename w h (if v.has_ycbcr then 3 else 1) fps (rate / 1000)])

/-- Source `video_textures`: the texture field of the active color path. -/
def video_textures (v : video_t) : texture_ref :=
  if v.has_ycbcr then texture_ref.textureY else texture_ref.texture

/-- Source `video_decode`, called when the clock `time_ss()` reads `current_time`. -/
def video_decode (E : Engine) (current_time : ℚ) (v : video_t) : Ran texture_ref :=
  let elapsed_time := current_time - v.previous_time
  let elapsed_time := if elapsed_time > 1 / 30 then 1 / 30 else elapsed_time
  let v := { v with previous_time := current_time }
  if !v.paused then
    let r := E.plm_decode v.plm elapsed_time
    { ret := if v.has_ycbcr then texture_ref.textureY else texture_ref.texture,
      v := { v with plm := r.1 },
      calls := Call.plm_decode elapsed_time :: r.2.flatMap (deliver E v) }
  else
    { ret := if v.has_ycbcr then texture_ref.textureY else texture_ref.texture,
      v := v, calls := [] }

/-- Source `video_destroy`: the calls that release what the session owns.  The
session does not exist afterwards. -/
def video_destroy (v : video_t) : List Call :=
  [Call.plm_destroy] ++
  (if v.has_ycbcr then
    [Call.texture_destroy v.textureY.id,
     Call.texture_destroy v.textureCr.id,
     Call.texture_destroy v.textureCb.id]
   else
    [Call.texture_destroy v.texture.id, (REALLOC v.surface 0 0).2]) ++
  [Call.FREE]

/-- Source `video_has_finished`: `!!plm_has_ended(v->plm)`. -/
def video_has_finished (v : video_t) : Int :=
  if v.plm.has_ended ≠ 0 then 1 else 0

/-- Source `video_duration`: the duration the decoder reports. -/
def video_duration (v : video_t) : ℚ := v.plm.duration

/-- Source `video_seek`: seek to the clamped target, clear queued audio when
the session has audio, report 1. -/
def video_seek (E : Engine) (v : video_t) (seek_to : ℚ) : Ran Int :=
  let target := clampf seek_to 0 (video_duration v)
  { ret := 1,
    v := { v with plm := E.plm_seek v.plm target false },
    calls := Call.plm_seek target false ::
      (if Engine.HAS_AUDIO E then (if v.has_audio then [Call.audio_queue_clear] else [])
       else []) }

/-- Source `video_position`: the time the decoder reports. -/
def video_position (v : video_t) : ℚ := v.plm.time

/-- Source `video_pause`: set the flag, nothing else. -/
def video_pause (v : video_t) (paused : Bool) : video_t :=
  { v with paused := paused }

/-- Source `video_is_paused`: read the flag. -/
def video_is_paused (v : video_t) : Bool := v.paused

/-- The `seconds` arguments of the `plm_decode` calls in a call record. -/
def decoder_steps : List Call → List ℚ
  | [] => []
  | Call.plm_decode seconds :: rest => seconds :: decoder_steps rest
  | _ :: rest => decoder_steps rest

/-- Consecutive `video_decode` calls at the clock readings `ts`: the returned
references, the session afterwards and all external calls. -/
def decode_all (E : Engine) : List ℚ → video_t → Ran (List texture_ref)
  | [], v => { ret := [], v := v, calls := [] }
  | t :: ts, v =>
    let r := video_decode E t v
    let rest := decode_all E ts r.v
    { ret := r.ret :: rest.ret, v := rest.v, calls := r.calls ++ rest.calls }

/-- One call of the public interface on a live session. -/
inductive Op where
  | decode (current_time : ℚ)
  | pause (paused : Bool)
  | seek (seek_to : ℚ)
  | has_finished
  | duration
  | position
  | is_paused
  | is_rgb
  | textures
deriving DecidableEq, Repr

/-- The session after one call. -/
def step (E : Engine) (v : video_t) : Op → video_t
  | Op.decode current_time => (video_decode E current_time v).v
  | Op.pause paused => video_pause v paused
  | Op.seek seek_to => (video_seek E v seek_to).v
  | Op.has_finished => v
  | Op.duration => v
  | Op.position => v
  | Op.is_paused => v
  | Op.is_rgb => v
  | Op.textures => v

/-- The clock readings taken by a sequence of calls: one per `video_decode`. -/
def readings : List Op → List ℚ
  | [] => []
  | Op.decode current_time :: ops => current_time :: readings ops
  | _ :: ops => readings ops

/-- The stored last-decode timestamp after each call of a sequence. -/
def timestamps (E : Engine) : List Op → video_t → List ℚ
  | [], _ => []
  | op :: ops, v => (step E v op).previous_time :: timestamps E ops (step E v op)

/-- The external calls one call of the public interface makes. -/
def step_calls (E : Engine) (v : video_t) : Op → List Call
  | Op.decode current_time => (video_decode E current_time v).calls
  | Op.seek seek_to => (video_seek E v seek_to).calls
  | Op.pause _ => []
  | Op.has_finished => []
  | Op.duration => []
  | Op.position => []
  | Op.is_paused => []
  | Op.is_rgb => []
  | Op.textures => []

/-- A sequence of calls of the public interface on a live session: the
session afterwards and all external calls made, in order. -/
def run (E : Engine) : List Op → video_t → video_t × List Call
  | [], v => (v, [])
  | op :: ops, v =>
    let rest := run E ops (step E v op)
    (rest.1, step_calls E v op ++ rest.2)

/-! ## A test double of the decoder -/

/-- Modelled from the spec: a decoder handle for a stream of duration 10.0
seconds ("seek(-5) on a stream of duration 10.0"), 320 by 240 pixels. -/
def demo_plm : plm_t :=
  { width := 320, height := 240, framerate := 25, samplerate := 44100,
    duration := 10, time := 0, has_ended := 0, loop := 0,
    audio_enabled := false, audio_stream := 0,
    video_decode_callback := false, audio_decode_callback := false }

/-- Modelled from the spec: a decoder double whose seek sets the position to
the requested time and whose decode advances the position by the requested
seconds and delivers no frame; every file opens. -/
def demo_engine : Engine :=
  { HAS_AUDIO := true,
    TEXTURE_R := 1,
    plm_create_with_file := fun _ => some demo_plm,
    plm_decode := fun plm seconds => ({ plm with time := plm.time + seconds }, []),
    plm_seek := fun plm time _ => { plm with time := time } }

/-- A planar session on `demo_plm` whose last decode step was at clock
reading 1. -/
def demo_session : video_t :=
  { video_t.zero demo_plm with has_ycbcr := true, previous_time := 1 }

/-! ## Reading a call record -/

/-- The `(w, h, n)` arguments of the `texture_create` calls in a call record. -/
def texture_requests : List Call → List (Int × Int × Int)
  | [] => []
  | Call.texture_create w h n _ _ :: rest => (w, h, n) :: texture_requests rest
  | _ :: rest => texture_requests rest

/-- The `size` arguments of the `REALLOC` calls in a call record. -/
def buffer_requests : List Call → List Int
  | [] => []
  | Call.REALLOC _ size _ :: rest => size :: buffer_requests rest
  | _ :: rest => buffer_requests rest

/-- Modelled from the spec: state of the texture layer that decides where an
upload lands: the active unit and the texture bound on each unit. -/
structure GLstate where
  active : GLenum
  bound : GLenum → Nat

/-- Modelled from the spec: the plane uploads a call record performs, each
with the texture that receives it, namely the one bound on the active unit
when `glTexImage2D` runs. -/
def plane_uploads (g : GLstate) : List Call → List (Nat × plm_plane_t)
  | [] => []
  | Call.glActiveTexture unit :: rest => plane_uploads { g with active := unit } rest
  | Call.glBindTexture texture :: rest =>
      plane_uploads
        { g with bound := fun unit => if unit = g.active then texture else g.bound unit } rest
  | Call.glTexImage2D width height data :: rest =>
      (g.bound g.active, { width := width, height := height, data := data }) ::
        plane_uploads g rest
  | _ :: rest => plane_uploads g rest

/-- What a session can own. -/
inductive Resource where
  | decoder
  | session
  | texture (id : Nat)
  | memory (ptr : Nat)
deriving DecidableEq, Repr

/-- Modelled from the spec: the counting test double of the allocators: what
one call allocates.  `NULL` is never counted. -/
def acquired_by : Call → List Resource
  | Call.plm_create_with_file _ opened => if opened then [Resource.decoder] else []
  | Call.MALLOC => [Resource.session]
  | Call.texture_create _ _ _ _ id => [Resource.texture id]
  | Call.REALLOC _ _ result => if result = 0 then [] else [Resource.memory result]
  | _ => []

/-- Modelled from the spec: the counting test double of the allocators: what
one call releases.  `NULL` is never counted. -/
def released_by : Call → List Resource
  | Call.plm_destroy => [Resource.decoder]
  | Call.FREE => [Resource.session]
  | Call.texture_destroy id => [Resource.texture id]
  | Call.REALLOC ptr _ _ => if ptr = 0 then [] else [Resource.memory ptr]
  | _ => []

/-- Says that `r` is the smallest multiple of 16 that is at least `x`. -/
def least_multiple_of_16 (x r : Int) : Prop :=
  16 ∣ r ∧ x ≤ r ∧ ∀ m : Int, 16 ∣ m → x ≤ m → r ≤ m

/-- A packed session on `demo_plm`, as `video` builds it when the allocators
last gave out handle 0. -/
def demo_packed_session : video_t :=
  { video_t.zero demo_plm with
    texture := { id := 1, w := 320, h := 240, n := 3, flags := 0 }, surface := 2 }

/-- A frame of two by two pixels. -/
def demo_frame : plm_frame_t :=
  { time := 0, width := 2, height := 2,
    y := { width := 2, height := 2, data := [16, 17, 18, 19] },
    cr := { width := 1, height := 1, data := [128] },
    cb := { width := 1, height := 1, data := [127] } }

/-- A texture layer state with unit 0 active and nothing bound. -/
def demo_gl : GLstate := { active := GLenum.GL_TEXTURE0, bound := fun _ => 0 }

/-- A decoder handle for a stream of 323 by 240 pixels. -/
def demo_plm_323 : plm_t :=
  { width := 323, height := 240, framerate := 25, samplerate := 44100,
    duration := 10, time := 0, has_ended := 0, loop := 0,
    audio_enabled := false, audio_stream := 0,
    video_decode_callback := false, audio_decode_callback := false }

/-- The demo decoder, opening every file as `demo_plm_323`. -/
def demo_engine_323 : Engine :=
  { HAS_AUDIO := true,
    TEXTURE_R := 1,
    plm_create_with_file := fun _ => some demo_plm_323,
    plm_decode := fun plm seconds => ({ plm with time := plm.time + seconds }, []),
    plm_seek := fun plm time _ => { plm with time := time } }

/-! ## Facts about the decode step -/

theorem decoder_steps_append (xs ys : List Call) :
    decoder_steps (xs ++ ys) = decoder_steps xs ++ decoder_steps ys := by
  induction xs with
  | nil => rfl
  | cons c cs ih => cases c <;> simp [decoder_steps, ih]

theorem decoder_steps_deliver (E : Engine) (v : video_t) (e : plm_event) :
    decoder_steps (deliver E v e) = [] := by
  cases e <;>
    simp only [deliver, mpeg_video_callback, mpeg_audio_callback, mpeg_update_texture] <;>
    repeat (first | rfl | split)

theorem decoder_steps_callbacks (E : Engine) (v : video_t) (es : List plm_event) :
    decoder_steps (es.flatMap (deliver E v)) = [] := by
  induction es with
  | nil => rfl
  | cons e es ih =>
    simp [List.flatMap_cons, decoder_steps_append, decoder_steps_deliver, ih]

theorem clamp_eq_min (x : ℚ) : (if x > 1 / 30 then 1 / 30 else x) = min x (1 / 30) := by
  by_cases h : x > 1 / 30
  · rw [if_pos h, min_eq_right (le_of_lt h)]
  · rw [if_neg h, min_eq_left (not_lt.mp h)]

theorem video_decode_previous_time (E : Engine) (t : ℚ) (v : video_t) :
    (video_decode E t v).v.previous_time = t := by
  unfold video_decode
  cases v.paused <;> rfl

theorem video_decode_paused (E : Engine) (t : ℚ) (v : video_t) (h : v.paused = true) :
    video_decode E t v =
      { ret := video_textures v, v := { v with previous_time := t }, calls := [] } := by
  unfold video_decode video_textures
  simp [h]

theorem video_decode_unpaused (E : Engine) (t : ℚ) (v : video_t) (h : v.paused = false) :
    video_decode E t v =
      { ret := video_textures v,
        v := { v with previous_time := t,
                      plm := (E.plm_decode v.plm (min (t - v.previous_time) (1 / 30))).1 },
        calls := Call.plm_decode (min (t - v.previous_time) (1 / 30)) ::
          (E.plm_decode v.plm (min (t - v.previous_time) (1 / 30))).2.flatMap
            (deliver E { v with previous_time := t }) } := by
  unfold video_decode video_textures
  simp only [clamp_eq_min, h, Bool.not_false, if_true]

theorem decode_all_paused (E : Engine) (ts : List ℚ) (v : video_t) (h : v.paused = true) :
    decode_all E ts v =
      { ret := List.replicate ts.length (video_textures v),
        v := { v with previous_time := ts.foldl (fun _ t => t) v.previous_time },
        calls := [] } := by
  induction ts generalizing v with
  | nil => rfl
  | cons t ts ih =>
    have hp : ({ v with previous_time := t } : video_t).paused = true := h
    simp only [decode_all, video_decode_paused E t v h, ih _ hp, List.length_cons,
      List.replicate_succ, List.foldl_cons, List.append_nil]
    rfl

/-- C1: on an unpaused session with stored timestamp `p`, `video_decode` at
clock reading `t` makes exactly one `plm_decode` call, first of all its calls,
with `min (t - p) (1/30)` seconds, and the decoder state afterwards is the
decoder's answer to that step; when `t - p` exceeds `1/30` the step is `1/30`. -/
theorem video_decode_advances_by_clamped_elapsed (E : Engine) (t : ℚ) (v : video_t)
    (h : v.paused = false) :
    decoder_steps (video_decode E t v).calls = [min (t - v.previous_time) (1 / 30)] ∧
    (video_decode E t v).calls.head? =
      some (Call.plm_decode (min (t - v.previous_time) (1 / 30))) ∧
    (video_decode E t v).v.plm =
      (E.plm_decode v.plm (min (t - v.previous_time) (1 / 30))).1 ∧
    (1 / 30 < t - v.previous_time →
      decoder_steps (video_decode E t v).calls = [1 / 30]) := by
  rw [video_decode_unpaused E t v h]
  have hs : decoder_steps
      (Call.plm_decode (min (t - v.previous_time) (1 / 30)) ::
        (E.plm_decode v.plm (min (t - v.previous_time) (1 / 30))).2.flatMap
          (deliver E { v with previous_time := t })) =
      [min (t - v.previous_time) (1 / 30)] := by
    simp [decoder_steps, decoder_steps_callbacks]
  refine ⟨hs, rfl, rfl, ?_⟩
  intro hlt
  rw [hs, min_eq_right (le_of_lt hlt)]

/-- Witness for C1: the demo session, last stepped at clock reading 1 and
stepped again at clock reading 2, advances the decoder by 1/30. -/
theorem video_decode_advances_by_clamped_elapsed_witness :
    demo_session.paused = false ∧
    decoder_steps (video_decode demo_engine 2 demo_session).calls = [1 / 30] :=
  ⟨rfl, (video_decode_advances_by_clamped_elapsed demo_engine 2 demo_session rfl).2.2.2
    (by norm_num [demo_session])⟩

/-- C2: after `video_pause(v, true)`, any run of `video_decode` calls (clock
readings `ts`, then `t`) makes no external call at all, leaves every field of
the session but the stored timestamp as it was, stores the last clock reading
`t`, leaves `video_position` unchanged and returns the reference that
`video_textures` gave before, once per call. -/
theorem paused_decode_only_stores_clock (E : Engine) (v : video_t) (ts : List ℚ) (t : ℚ) :
    (decode_all E (ts ++ [t]) (video_pause v true)).calls = [] ∧
    (decode_all E (ts ++ [t]) (video_pause v true)).v =
      { video_pause v true with previous_time := t } ∧
    video_position (decode_all E (ts ++ [t]) (video_pause v true)).v = video_position v ∧
    (decode_all E (ts ++ [t]) (video_pause v true)).ret =
      List.replicate (ts.length + 1) (video_textures v) ∧
    (decode_all E [] (video_pause v true)).v = video_pause v true := by
  rw [decode_all_paused E (ts ++ [t]) (video_pause v true) rfl]
  simp only [List.foldl_append, List.foldl_cons, List.foldl_nil, List.length_append,
    List.length_singleton]
  refine ⟨?_, ?_, ?_, ?_, ?_⟩ <;> trivial

/-- C3: pause, decode steps while paused (clock readings `ts`, the last at
`t1`), resume, then a decode step at `t2 ≥ t1`: the paused steps advance the
decoder not at all and the step after resuming advances it by
`min (t2 - t1) (1/30)`, which lies between 0 and 1/30 and does not mention
the clock reading at which the pause began. -/
theorem resume_step_is_clamped (E : Engine) (v : video_t) (ts : List ℚ) (t1 t2 : ℚ)
    (h : t1 ≤ t2) :
    decoder_steps (decode_all E (ts ++ [t1]) (video_pause v true)).calls = [] ∧
    decoder_steps
      (video_decode E t2
        (video_pause (decode_all E (ts ++ [t1]) (video_pause v true)).v false)).calls =
      [min (t2 - t1) (1 / 30)] ∧
    0 ≤ min (t2 - t1) (1 / 30) ∧ min (t2 - t1) (1 / 30) ≤ 1 / 30 := by
  rw [decode_all_paused E (ts ++ [t1]) (video_pause v true) rfl]
  simp only [List.foldl_append, List.foldl_cons, List.foldl_nil]
  refine ⟨rfl, ?_, ?_, min_le_right _ _⟩
  · rw [video_decode_unpaused E t2 _ rfl]
    simp [decoder_steps, decoder_steps_callbacks, video_pause]
  · exact le_min (sub_nonneg.mpr h) (by norm_num)

/-- Witness for C3: paused steps at clock readings 2, 3 and 500, resumed,
stepped at 501: the decoder advances by 1/30, not by the 499 seconds of the
pause. -/
theorem resume_step_is_clamped_witness :
    (500 : ℚ) ≤ 501 ∧
    decoder_steps
      (video_decode demo_engine 501
        (video_pause
          (decode_all demo_engine ([2, 3] ++ [500]) (video_pause demo_session true)).v
          false)).calls = [1 / 30] := by
  have hw := resume_step_is_clamped demo_engine demo_session [2, 3] 500 501 (by norm_num)
  refine ⟨by norm_num, ?_⟩
  rw [hw.2.1]
  norm_num

/-- C9: when the clock readings taken by a sequence of calls never decrease,
starting from the reading stored in the session, the stored timestamp after
each call never decreases either; every `video_decode` stores its clock
reading, paused or not, and every other call leaves the stored timestamp
unchanged. -/
theorem previous_time_never_decreases (E : Engine) (ops : List Op) (v : video_t)
    (h : List.Chain (fun a b => a ≤ b) v.previous_time (readings ops)) :
    List.Chain (fun a b => a ≤ b) v.previous_time (timestamps E ops v) ∧
    (∀ (u : video_t) (t : ℚ), (step E u (Op.decode t)).previous_time = t) ∧
    (∀ (u : video_t) (op : Op), (∀ t, op ≠ Op.decode t) →
      (step E u op).previous_time = u.previous_time) := by
  refine ⟨?_, fun u t => video_decode_previous_time E t u, ?_⟩
  · induction ops generalizing v with
    | nil => exact List.Chain.nil
    | cons op ops ih =>
      cases op with
      | decode t =>
        have hc : List.Chain (fun a b => a ≤ b) v.previous_time (t :: readings ops) := h
        have ht : (step E v (Op.decode t)).previous_time = t :=
          video_decode_previous_time E t v
        have hrest := ih (step E v (Op.decode t)) (by rw [ht]; exact (List.chain_cons.mp hc).2)
        rw [ht] at hrest
        show List.Chain _ _ ((step E v (Op.decode t)).previous_time :: _)
        rw [ht]
        exact List.Chain.cons (List.chain_cons.mp hc).1 hrest
      | pause b => exact List.Chain.cons (le_refl _) (ih (step E v (Op.pause b)) h)
      | seek s => exact List.Chain.cons (le_refl _) (ih (step E v (Op.seek s)) h)
      | has_finished => exact List.Chain.cons (le_refl _) (ih v h)
      | duration => exact List.Chain.cons (le_refl _) (ih v h)
      | position => exact List.Chain.cons (le_refl _) (ih v h)
      | is_paused => exact List.Chain.cons (le_refl _) (ih v h)
      | is_rgb => exact List.Chain.cons (le_refl _) (ih v h)
      | textures => exact List.Chain.cons (le_refl _) (ih v h)
  · intro u op hop
    cases op with
    | decode t => exact absurd rfl (hop t)
    | _ => rfl

/-- Witness for C9: decode at 2, pause, decode at 2, seek, decode at 5 on the
demo session, whose stored reading is 1. -/
theorem previous_time_never_decreases_witness :
    List.Chain (fun a b => a ≤ b) demo_session.previous_time
      (readings [Op.decode 2, Op.pause true, Op.decode 2, Op.seek 7, Op.position,
        Op.decode 5]) ∧
    List.Chain (fun a b => a ≤ b) demo_session.previous_time
      (timestamps demo_engine [Op.decode 2, Op.pause true, Op.decode 2, Op.seek 7,
        Op.position, Op.decode 5] demo_session) :=
  ⟨by simp [readings, demo_session]; norm_num,
   (previous_time_never_decreases demo_engine _ demo_session
     (by simp [readings, demo_session]; norm_num)).1⟩

/-! ## Seeking -/

theorem clampf_eq (x hi : ℚ) (h : 0 ≤ hi) : clampf x 0 hi = max 0 (min hi x) := by
  unfold clampf
  by_cases h1 : x < 0
  · rw [if_pos h1, max_eq_left]
    exact le_trans (min_le_right _ _) (le_of_lt h1)
  · rw [if_neg h1]
    by_cases h2 : hi < x
    · rw [if_pos h2, min_eq_left (le_of_lt h2), max_eq_right h]
    · rw [if_neg h2, min_eq_right (not_lt.mp h2), max_eq_right (not_lt.mp h1)]

/-- C4: on a session whose duration `d` is not negative, `video_seek` returns
1 and makes as its first call `plm_seek` with the target clamped into
`[0, d]` and exact-frame seeking off, the decoder state afterwards being the
decoder's answer to that seek; the only other call it can make is
`audio_queue_clear`.  Over a decoder whose seek sets the position to the
requested time and keeps the duration, the position afterwards is the clamped
target: 0 for a target at or below 0, the duration for a target at or above
it. -/
theorem video_seek_clamps_target (E : Engine) (v : video_t) (seek_to : ℚ)
    (hd : 0 ≤ video_duration v) :
    (video_seek E v seek_to).ret = 1 ∧
    0 ≤ max 0 (min (video_duration v) seek_to) ∧
    max 0 (min (video_duration v) seek_to) ≤ video_duration v ∧
    (video_seek E v seek_to).calls.head? =
      some (Call.plm_seek (max 0 (min (video_duration v) seek_to)) false) ∧
    (video_seek E v seek_to).calls.tail ⊆ [Call.audio_queue_clear] ∧
    (video_seek E v seek_to).v.plm =
      E.plm_seek v.plm (max 0 (min (video_duration v) seek_to)) false ∧
    ((∀ (plm : plm_t) (time : ℚ) (exact : Bool),
        (E.plm_seek plm time exact).time = time ∧
        (E.plm_seek plm time exact).duration = plm.duration) →
      video_position (video_seek E v seek_to).v = max 0 (min (video_duration v) seek_to) ∧
      (seek_to ≤ 0 → video_position (video_seek E v seek_to).v = 0) ∧
      (video_duration v ≤ seek_to →
        video_position (video_seek E v seek_to).v =
          video_duration (video_seek E v seek_to).v)) := by
  have hc := clampf_eq seek_to (video_duration v) hd
  refine ⟨rfl, le_max_left _ _, max_le hd (min_le_left _ _), ?_, ?_, ?_, ?_⟩
  · simp only [video_seek, hc, List.head?_cons]
  · simp only [video_seek, List.tail_cons]
    split
    · split
      · exact List.Subset.refl _
      · exact List.nil_subset _
    · exact List.nil_subset _
  · simp only [video_seek, hc]
  · intro hseek
    have hpos : video_position (video_seek E v seek_to).v =
        max 0 (min (video_duration v) seek_to) := by
      simp only [video_seek, video_position, hc]
      exact (hseek _ _ _).1
    have hdur : video_duration (video_seek E v seek_to).v = video_duration v := by
      simp only [video_seek, video_duration]
      exact (hseek _ _ _).2
    refine ⟨hpos, ?_, ?_⟩
    · intro hle
      rw [hpos, max_eq_left (le_trans (min_le_right _ _) hle)]
    · intro hle
      rw [hpos, hdur, min_eq_left hle, max_eq_right hd]

/-- Witness for C4: on the demo stream of duration 10, over the demo decoder,
`seek(-5)` leaves the position at 0 and `seek(999)` at the duration, and both
return 1. -/
theorem video_seek_clamps_target_witness :
    (0 : ℚ) ≤ video_duration demo_session ∧
    video_duration demo_session = 10 ∧
    (video_seek demo_engine demo_session (-5)).ret = 1 ∧
    video_position (video_seek demo_engine demo_session (-5)).v = 0 ∧
    (video_seek demo_engine demo_session 999).ret = 1 ∧
    video_position (video_seek demo_engine demo_session 999).v =
      video_duration (video_seek demo_engine demo_session 999).v := by
  have hd : (0 : ℚ) ≤ video_duration demo_session := by
    norm_num [video_duration, demo_session, video_t.zero, demo_plm]
  have hseek : ∀ (plm : plm_t) (time : ℚ) (exact : Bool),
      (demo_engine.plm_seek plm time exact).time = time ∧
      (demo_engine.plm_seek plm time exact).duration = plm.duration :=
    fun _ _ _ => ⟨rfl, rfl⟩
  have lo := video_seek_clamps_target demo_engine demo_session (-5) hd
  have hi := video_seek_clamps_target demo_engine demo_session 999 hd
  refine ⟨hd, rfl, lo.1, (lo.2.2.2.2.2.2 hseek).2.1 (by norm_num), hi.1,
    (hi.2.2.2.2.2.2 hseek).2.2 ?_⟩
  norm_num [video_duration, demo_session, video_t.zero, demo_plm]

/-! ## The frame-ready callback -/

/-- C8: the frame-ready callback makes no call when the session is paused.
When it is not paused, on the planar path it makes exactly the three
`mpeg_update_texture` call groups, which upload the luma plane to `textureY`,
the chroma-blue plane to `textureCb` and the chroma-red plane to `textureCr`,
and requests no packed conversion; on the packed path it makes exactly two
calls, the conversion into `surface` with stride `texture.w * 3` and one
update of `texture` over its full width, height and channel count from
`surface`, and uploads no plane. -/
theorem frame_callback_effects (frame : plm_frame_t) (v : video_t) (g : GLstate) :
    (v.paused = true → mpeg_video_callback frame v = []) ∧
    (v.paused = false → v.has_ycbcr = true →
      mpeg_video_callback frame v =
        mpeg_update_texture GLenum.GL_TEXTURE0 v.textureY.id frame.y ++
        mpeg_update_texture GLenum.GL_TEXTURE1 v.textureCb.id frame.cb ++
        mpeg_update_texture GLenum.GL_TEXTURE2 v.textureCr.id frame.cr ∧
      plane_uploads g (mpeg_video_callback frame v) =
        [(v.textureY.id, frame.y), (v.textureCb.id, frame.cb), (v.textureCr.id, frame.cr)]) ∧
    (v.paused = false → v.has_ycbcr = false →
      mpeg_video_callback frame v =
        [Call.plm_frame_to_rgb frame v.surface (int_mul v.texture.w 3),
         Call.texture_update v.texture.id v.texture.w v.texture.h v.texture.n
           v.surface v.texture.flags] ∧
      plane_uploads g (mpeg_video_callback frame v) = []) := by
  refine ⟨?_, ?_, ?_⟩
  · intro hp
    simp [mpeg_video_callback, hp]
  · intro hp hy
    simp [mpeg_video_callback, mpeg_update_texture, plane_uploads, hp, hy]
  · intro hp hy
    simp [mpeg_video_callback, plane_uploads, hp, hy]

/-- Witness for C8: the demo frame delivered to the paused demo session, to
the planar demo session and to the packed demo session. -/
theorem frame_callback_effects_witness :
    (video_pause demo_session true).paused = true ∧
    mpeg_video_callback demo_frame (video_pause demo_session true) = [] ∧
    (demo_session.paused = false ∧ demo_session.has_ycbcr = true) ∧
    plane_uploads demo_gl (mpeg_video_callback demo_frame demo_session) =
      [(demo_session.textureY.id, demo_frame.y), (demo_session.textureCb.id, demo_frame.cb),
       (demo_session.textureCr.id, demo_frame.cr)] ∧
    (demo_packed_session.paused = false ∧ demo_packed_session.has_ycbcr = false) ∧
    mpeg_video_callback demo_frame demo_packed_session =
      [Call.plm_frame_to_rgb demo_frame 2 960, Call.texture_update 1 320 240 3 2 0] :=
  ⟨rfl,
   (frame_callback_effects demo_frame (video_pause demo_session true) demo_gl).1 rfl,
   ⟨rfl, rfl⟩,
   ((frame_callback_effects demo_frame demo_session demo_gl).2.1 rfl rfl).2,
   ⟨rfl, rfl⟩,
   ((frame_callback_effects demo_frame demo_packed_session demo_gl).2.2 rfl rfl).1⟩

/-! ## Construction -/

theorem wrap_int_of_int (x : Int) (h1 : INT_MIN ≤ x) (h2 : x ≤ INT_MAX) : wrap_int x = x := by
  unfold INT_MIN at h1
  unfold INT_MAX at h2
  unfold wrap_int
  omega

theorem nat_ldiff_15 (n : Nat) : Nat.ldiff n 15 = n / 16 * 16 := by
  apply Nat.eq_of_testBit_eq
  intro i
  have h15 : (15 : Nat) = 2 ^ 4 - 1 := by norm_num
  have h16 : n / 16 * 16 = (n >>> 4) <<< 4 := by
    rw [Nat.shiftLeft_eq, Nat.shiftRight_eq_div_pow]
  rw [Nat.testBit_ldiff, h16, Nat.testBit_shiftLeft, Nat.testBit_shiftRight, h15,
    Nat.testBit_two_pow_sub_one]
  by_cases hi : i < 4
  · have : ¬ (i ≥ 4) := by omega
    simp [hi, this]
  · have h4 : i ≥ 4 := by omega
    have : 4 + (i - 4) = i := by omega
    simp [hi, h4, this]

theorem int_and_not_15 (x : Int) (hx : 0 ≤ x) : int_and x (int_not 15) = x / 16 * 16 := by
  obtain ⟨n, rfl⟩ := Int.eq_ofNat_of_zero_le hx
  show ((Nat.ldiff n 15 : Nat) : Int) = _
  rw [nat_ldiff_15]
  push_cast
  rfl

theorem round_up_16 (x : Int) (h0 : 0 ≤ x) (h1 : x ≤ INT_MAX - 15) :
    int_and (int_add x 15) (int_not 15) = (x + 15) / 16 * 16 := by
  unfold INT_MAX at h1
  have hw : int_add x 15 = x + 15 := by
    unfold int_add
    exact wrap_int_of_int _ (by unfold INT_MIN; omega) (by unfold INT_MAX; omega)
  rw [hw, int_and_not_15 _ (by omega)]

theorem int_and_rgb_ne_zero (flags : Int) :
    int_and flags VIDEO_RGB ≠ 0 ↔ Int.testBit flags 1 = true := by
  have hm : ∃ m : Nat, Int.land flags 2 = (m : Int) := by
    cases flags with
    | ofNat n => exact ⟨n &&& 2, rfl⟩
    | negSucc n => exact ⟨Nat.ldiff 2 n, rfl⟩
  obtain ⟨m, hm⟩ := hm
  have hbit : ∀ k, m.testBit k = (Int.testBit flags k && Nat.testBit 2 k) := by
    intro k
    have := Int.testBit_land flags 2 k
    rw [hm] at this
    exact this
  unfold int_and VIDEO_RGB
  rw [hm]
  constructor
  · intro hne
    by_contra hb
    apply hne
    have : m = 0 := by
      apply Nat.eq_of_testBit_eq
      intro k
      rw [hbit k, Nat.zero_testBit]
      have h2 : (2 : Nat) = 2 ^ 1 := by norm_num
      rw [h2, Nat.testBit_two_pow]
      by_cases hk : 1 = k
      · subst hk; simp at hb; simp [hb]
      · simp [hk]
    rw [this]; rfl
  · intro hb hz
    have h1 := hbit 1
    rw [hb] at h1
    have hm0 : m = 0 := by exact_mod_cast hz
    rw [hm0] at h1
    simp at h1
    exact absurd h1 (by decide)

theorem video_planar (E : Engine) (filename : String) (flags : Int) (fresh : Nat)
    (plm : plm_t) (hopen : E.plm_create_with_file filename = some plm)
    (hflag : Int.testBit flags 1 = false) :
    ∃ v, (video E filename flags fresh).1 = some v ∧
      v.has_ycbcr = true ∧
      v.textureY = (texture_create plm.width plm.height 1 (Engine.TEXTURE_R E) fresh).1 ∧
      v.textureCb =
        (texture_create plm.width plm.height 1 (Engine.TEXTURE_R E) (fresh + 1)).1 ∧
      v.textureCr =
        (texture_create plm.width plm.height 1 (Engine.TEXTURE_R E) (fresh + 2)).1 ∧
      v.texture = texture_t.zero ∧ v.surface = 0 ∧
      ∃ tail, (∀ c ∈ tail, acquired_by c = [] ∧ released_by c = []) ∧
        texture_requests tail = [] ∧ buffer_requests tail = [] ∧
        (video E filename flags fresh).2 =
          [Call.plm_create_with_file filename true, Call.MALLOC,
           (texture_create plm.width plm.height 1 (Engine.TEXTURE_R E) fresh).2,
           (texture_create plm.width plm.height 1 (Engine.TEXTURE_R E) (fresh + 1)).2,
           (texture_create plm.width plm.height 1 (Engine.TEXTURE_R E) (fresh + 2)).2] ++
          tail := by
  have hz : int_and flags VIDEO_RGB = 0 := by
    by_contra hne
    rw [(int_and_rgb_ne_zero flags).mp hne] at hflag
    exact absurd hflag (by decide)
  unfold video
  rw [hopen]
  cases hA : Engine.HAS_AUDIO E <;>
    by_cases hna : int_and flags VIDEO_NO_AUDIO = 0 <;>
    simp only [hz, hA, hna, ne_eq, not_true_eq_false, not_false_eq_true, if_false, if_true,
      Bool.false_eq_true] <;>
    refine ⟨_, rfl, rfl, rfl, rfl, rfl, rfl, rfl, _, ?_, ?_, ?_, rfl⟩ <;>
    simp [acquired_by, released_by, texture_requests, buffer_requests]

theorem video_packed (E : Engine) (filename : String) (flags : Int) (fresh : Nat)
    (plm : plm_t) (hopen : E.plm_create_with_file filename = some plm)
    (hflag : Int.testBit flags 1 = true) :
    ∃ v, (video E filename flags fresh).1 = some v ∧
      v.has_ycbcr = false ∧ v.paused = false ∧
      v.texture =
        (texture_create (int_and (int_add plm.width 15) (int_not 15))
          (int_and (int_add plm.height 15) (int_not 15)) 3 0 fresh).1 ∧
      v.surface =
        (REALLOC 0
          (int_mul (int_mul (int_and (int_add plm.width 15) (int_not 15))
            (int_and (int_add plm.height 15) (int_not 15))) 3) (fresh + 1)).1 ∧
      v.textureY = texture_t.zero ∧ v.textureCb = texture_t.zero ∧
      v.textureCr = texture_t.zero ∧
      ∃ tail, (∀ c ∈ tail, acquired_by c = [] ∧ released_by c = []) ∧
        texture_requests tail = [] ∧ buffer_requests tail = [] ∧
        (video E filename flags fresh).2 =
          [Call.plm_create_with_file filename true, Call.MALLOC,
           (texture_create (int_and (int_add plm.width 15) (int_not 15))
             (int_and (int_add plm.height 15) (int_not 15)) 3 0 fresh).2,
           (REALLOC 0
             (int_mul (int_mul (int_and (int_add plm.width 15) (int_not 15))
               (int_and (int_add plm.height 15) (int_not 15))) 3) (fresh + 1)).2] ++
          tail := by
  have hz : int_and flags VIDEO_RGB ≠ 0 := (int_and_rgb_ne_zero flags).mpr hflag
  unfold video
  rw [hopen]
  cases hA : Engine.HAS_AUDIO E <;>
    by_cases hna : int_and flags VIDEO_NO_AUDIO = 0 <;>
    simp only [hz, hA, hna, ne_eq, not_true_eq_false, not_false_eq_true, if_false, if_true,
      Bool.false_eq_true] <;>
    refine ⟨_, rfl, rfl, rfl, rfl, rfl, rfl, rfl, rfl, _, ?_, ?_, ?_, rfl⟩ <;>
    simp [acquired_by, released_by, texture_requests, buffer_requests]

theorem flatMap_neutral {α : Type} (f : Call → List α) (tail : List Call)
    (h : ∀ c ∈ tail, f c = []) : tail.flatMap f = [] := by
  induction tail with
  | nil => rfl
  | cons c cs ih =>
    rw [List.flatMap_cons, h c (List.mem_cons_self _ _),
      ih (fun d hd => h d (List.mem_cons_of_mem _ hd))]
    rfl

theorem texture_requests_append (xs ys : List Call) :
    texture_requests (xs ++ ys) = texture_requests xs ++ texture_requests ys := by
  induction xs with
  | nil => rfl
  | cons c cs ih => cases c <;> simp [texture_requests, ih]

theorem buffer_requests_append (xs ys : List Call) :
    buffer_requests (xs ++ ys) = buffer_requests xs ++ buffer_requests ys := by
  induction xs with
  | nil => rfl
  | cons c cs ih => cases c <;> simp [buffer_requests, ih]

theorem round_up_16_least (x : Int) (h0 : 0 ≤ x) (h1 : x ≤ INT_MAX - 15) :
    least_multiple_of_16 x (int_and (int_add x 15) (int_not 15)) ∧
    int_and (int_add x 15) (int_not 15) ≤ x + 15 ∧
    (16 ∣ x → int_and (int_add x 15) (int_not 15) = x) := by
  rw [round_up_16 x h0 h1]
  unfold least_multiple_of_16
  refine ⟨⟨by omega, by omega, fun m hm hle => by omega⟩, by omega, fun hd => by omega⟩

theorem demo_round_width : int_and (int_add 320 15) (int_not 15) = 320 := by
  rw [round_up_16 320 (by norm_num) (by norm_num [INT_MAX])]
  norm_num

theorem demo_round_height : int_and (int_add 240 15) (int_not 15) = 240 := by
  rw [round_up_16 240 (by norm_num) (by norm_num [INT_MAX])]
  norm_num

/-- C6: with native width and height between 0 and `INT_MAX - 15`, the packed
path of `video` makes one `texture_create` call, with three channels and the
dimensions `(w+15) & ~15` by `(h+15) & ~15`; each of these is the smallest
multiple of 16 that is at least the native dimension, exceeds it by at most
15, and equals it when it is already a multiple of 16. -/
theorem packed_texture_is_rounded_up (E : Engine) (filename : String) (flags : Int)
    (fresh : Nat) (plm : plm_t) (hopen : E.plm_create_with_file filename = some plm)
    (hrgb : Int.testBit flags 1 = true)
    (hw0 : 0 ≤ plm.width) (hw1 : plm.width ≤ INT_MAX - 15)
    (hh0 : 0 ≤ plm.height) (hh1 : plm.height ≤ INT_MAX - 15) :
    texture_requests (video E filename flags fresh).2 =
      [(int_and (int_add plm.width 15) (int_not 15),
        int_and (int_add plm.height 15) (int_not 15), 3)] ∧
    least_multiple_of_16 plm.width (int_and (int_add plm.width 15) (int_not 15)) ∧
    least_multiple_of_16 plm.height (int_and (int_add plm.height 15) (int_not 15)) ∧
    int_and (int_add plm.width 15) (int_not 15) ≤ plm.width + 15 ∧
    int_and (int_add plm.height 15) (int_not 15) ≤ plm.height + 15 ∧
    (16 ∣ plm.width → int_and (int_add plm.width 15) (int_not 15) = plm.width) ∧
    (16 ∣ plm.height → int_and (int_add plm.height 15) (int_not 15) = plm.height) := by
  obtain ⟨v, _, _, _, _, _, _, _, _, tail, _, htr, _, hcalls⟩ :=
    video_packed E filename flags fresh plm hopen hrgb
  have hw := round_up_16_least plm.width hw0 hw1
  have hh := round_up_16_least plm.height hh0 hh1
  refine ⟨?_, hw.1, hh.1, hw.2.1, hh.2.1, hw.2.2, hh.2.2⟩
  rw [hcalls, texture_requests_append, htr]
  rfl

/-- Witness for C6: a stream of 323 by 240 pixels gets a packed texture of
336 by 240. -/
theorem packed_texture_is_rounded_up_witness :
    demo_engine_323.plm_create_with_file "clip.mpg" = some demo_plm_323 ∧
    Int.testBit 2 1 = true ∧
    (0 ≤ demo_plm_323.width ∧ demo_plm_323.width ≤ INT_MAX - 15 ∧
      0 ≤ demo_plm_323.height ∧ demo_plm_323.height ≤ INT_MAX - 15) ∧
    texture_requests (video demo_engine_323 "clip.mpg" 2 0).2 = [(336, 240, 3)] := by
  have hw0 : 0 ≤ demo_plm_323.width := by norm_num [demo_plm_323]
  have hw1 : demo_plm_323.width ≤ INT_MAX - 15 := by norm_num [demo_plm_323, INT_MAX]
  have hh0 : 0 ≤ demo_plm_323.height := by norm_num [demo_plm_323]
  have hh1 : demo_plm_323.height ≤ INT_MAX - 15 := by norm_num [demo_plm_323, INT_MAX]
  have h := packed_texture_is_rounded_up demo_engine_323 "clip.mpg" 2 0 demo_plm_323 rfl
    (by decide) hw0 hw1 hh0 hh1
  refine ⟨rfl, by decide, ⟨hw0, hw1, hh0, hh1⟩, ?_⟩
  rw [h.1, round_up_16 _ hw0 hw1, round_up_16 _ hh0 hh1]
  norm_num [demo_plm_323]

theorem packed_path_in_range_of_size (w h : Int) (hw : 1 ≤ w) (hh : 1 ≤ h)
    (hsize : (w + 15) / 16 * 16 * ((h + 15) / 16 * 16) * 3 ≤ INT_MAX) :
    w + 15 ≤ INT_MAX ∧ h + 15 ≤ INT_MAX ∧ (w + 15) / 16 * 16 * 3 ≤ INT_MAX := by
  unfold INT_MAX at *
  have hW : 16 ≤ (w + 15) / 16 * 16 := by omega
  have hH : 16 ≤ (h + 15) / 16 * 16 := by omega
  have hWw : w ≤ (w + 15) / 16 * 16 := by omega
  have hHh : h ≤ (h + 15) / 16 * 16 := by omega
  generalize (w + 15) / 16 * 16 = W at *
  generalize (h + 15) / 16 * 16 = H at *
  refine ⟨?_, ?_, ?_⟩ <;> nlinarith [mul_nonneg (by omega : (0 : Int) ≤ W - 16)
    (by omega : (0 : Int) ≤ H - 16)]

/-- C10: on the packed path, for native width `w ≥ 0` and height `h ≥ 0` such
that no `int` expression of the path overflows (`w+15`, `h+15`, the stride
`w16*3` and the size `w16*h16*3`, with `w16`, `h16` the rounded dimensions),
`video` requests a surface of exactly `w16*h16*3` bytes, the frame-ready
callback passes that surface with stride `w16*3` and then updates the whole
`w16` by `h16` by 3 texture from it, and the surface is large enough for `h`
rows of `w` pixels at that stride: `(h-1)*(w16*3) + w*3 ≤ w16*h16*3`. -/
theorem surface_holds_converted_frame (E : Engine) (filename : String) (flags : Int)
    (fresh : Nat) (plm : plm_t) (frame : plm_frame_t) (w16 h16 : Int)
    (hopen : E.plm_create_with_file filename = some plm)
    (hrgb : Int.testBit flags 1 = true)
    (hw16 : w16 = int_and (int_add plm.width 15) (int_not 15))
    (hh16 : h16 = int_and (int_add plm.height 15) (int_not 15))
    (hw0 : 0 ≤ plm.width) (hh0 : 0 ≤ plm.height)
    (hw1 : plm.width + 15 ≤ INT_MAX) (hh1 : plm.height + 15 ≤ INT_MAX)
    (hstride : w16 * 3 ≤ INT_MAX) (hsize : w16 * h16 * 3 ≤ INT_MAX) :
    ∃ v, (video E filename flags fresh).1 = some v ∧
      buffer_requests (video E filename flags fresh).2 = [w16 * h16 * 3] ∧
      mpeg_video_callback frame v =
        [Call.plm_frame_to_rgb frame v.surface (w16 * 3),
         Call.texture_update v.texture.id w16 h16 3 v.surface 0] ∧
      (plm.height - 1) * (w16 * 3) + plm.width * 3 ≤ w16 * h16 * 3 ∧
      v.texture.w * v.texture.h * v.texture.n = w16 * h16 * 3 := by
  obtain ⟨v, hv, hy, hp, htex, _, _, _, _, tail, _, _, hbr, hcalls⟩ :=
    video_packed E filename flags fresh plm hopen hrgb
  have hW := round_up_16 plm.width hw0 (by unfold INT_MAX at *; omega)
  have hH := round_up_16 plm.height hh0 (by unfold INT_MAX at *; omega)
  rw [← hw16] at hW htex hcalls
  rw [← hh16] at hH htex hcalls
  have hWw : plm.width ≤ w16 := by omega
  have hHh : plm.height ≤ h16 := by omega
  have hW0 : 0 ≤ w16 := by omega
  have hH0 : 0 ≤ h16 := by omega
  have hWH0 : 0 ≤ w16 * h16 := mul_nonneg hW0 hH0
  have hmul1 : int_mul w16 h16 = w16 * h16 := by
    unfold int_mul
    exact wrap_int_of_int _ (by unfold INT_MIN; omega) (by omega)
  have hmul2 : int_mul (w16 * h16) 3 = w16 * h16 * 3 := by
    unfold int_mul
    exact wrap_int_of_int _ (by unfold INT_MIN; omega) hsize
  have hmul3 : int_mul w16 3 = w16 * 3 := by
    unfold int_mul
    exact wrap_int_of_int _ (by unfold INT_MIN; omega) hstride
  refine ⟨v, hv, ?_, ?_, ?_, ?_⟩
  · rw [hcalls, buffer_requests_append, hbr, hmul1, hmul2]
    rfl
  · simp only [mpeg_video_callback, hp, hy, htex, texture_create, hmul3]
    rfl
  · nlinarith [mul_nonneg hW0 (sub_nonneg.mpr hHh), sub_nonneg.mpr hWw]
  · rw [htex]
    rfl

/-- Witness for C10: the demo stream of 320 by 240 pixels gets a surface of
230400 bytes, which holds 240 rows of 320 pixels at stride 960. -/
theorem surface_holds_converted_frame_witness :
    demo_engine.plm_create_with_file "clip.mpg" = some demo_plm ∧
    Int.testBit 2 1 = true ∧
    (320 : Int) = int_and (int_add demo_plm.width 15) (int_not 15) ∧
    (240 : Int) = int_and (int_add demo_plm.height 15) (int_not 15) ∧
    (0 ≤ demo_plm.width ∧ 0 ≤ demo_plm.height ∧ demo_plm.width + 15 ≤ INT_MAX ∧
      demo_plm.height + 15 ≤ INT_MAX) ∧
    ((320 : Int) * 3 ≤ INT_MAX ∧ (320 : Int) * 240 * 3 ≤ INT_MAX) ∧
    buffer_requests (video demo_engine "clip.mpg" 2 0).2 = [230400] ∧
    (demo_plm.height - 1) * (320 * 3) + demo_plm.width * 3 ≤ (230400 : Int) := by
  have e1 : (320 : Int) = int_and (int_add demo_plm.width 15) (int_not 15) :=
    demo_round_width.symm
  have e2 : (240 : Int) = int_and (int_add demo_plm.height 15) (int_not 15) :=
    demo_round_height.symm
  have b1 : 0 ≤ demo_plm.width := by norm_num [demo_plm]
  have b2 : 0 ≤ demo_plm.height := by norm_num [demo_plm]
  have b3 : demo_plm.width + 15 ≤ INT_MAX := by norm_num [demo_plm, INT_MAX]
  have b4 : demo_plm.height + 15 ≤ INT_MAX := by norm_num [demo_plm, INT_MAX]
  have b5 : (320 : Int) * 3 ≤ INT_MAX := by norm_num [INT_MAX]
  have b6 : (320 : Int) * 240 * 3 ≤ INT_MAX := by norm_num [INT_MAX]
  obtain ⟨v, _, hbuf, _, hfit, _⟩ :=
    surface_holds_converted_frame demo_engine "clip.mpg" 2 0 demo_plm demo_frame 320 240
      rfl (by decide) e1 e2 b1 b2 b3 b4 b5 b6
  refine ⟨rfl, by decide, e1, e2, ⟨b1, b2, b3, b4⟩, ⟨b5, b6⟩, ?_, ?_⟩
  · rw [hbuf]; norm_num
  · norm_num at hfit ⊢
    exact hfit

/-! ## Destruction -/

theorem destroy_fresh_session (E : Engine) (filename : String)
    (flags : Int) (fresh : Nat) (plm : plm_t)
    (hopen : E.plm_create_with_file filename = some plm) :
    ∃ v, (video E filename flags fresh).1 = some v ∧
      List.Perm ((video_destroy v).flatMap released_by)
        ((video E filename flags fresh).2.flatMap acquired_by) ∧
      ((video_destroy v).flatMap released_by).Nodup ∧
      ((video_destroy v).flatMap released_by).length =
        ((video E filename flags fresh).2.flatMap acquired_by).length ∧
      (video_destroy v).count Call.plm_destroy = 1 ∧
      (video E filename flags fresh).2.flatMap released_by = [] ∧
      (video_destroy v).flatMap acquired_by = [] := by
  cases hb : Int.testBit flags 1 with
  | false =>
    obtain ⟨v, hv, hy, hY, hCb, hCr, _, _, tail, hn, _, _, hcalls⟩ :=
      video_planar E filename flags fresh plm hopen hb
    have ha := flatMap_neutral acquired_by tail (fun c hc => (hn c hc).1)
    have hr := flatMap_neutral released_by tail (fun c hc => (hn c hc).2)
    have hperm : List.Perm ((video_destroy v).flatMap released_by)
        ((video E filename flags fresh).2.flatMap acquired_by) := by
      rw [hcalls, List.flatMap_append, ha]
      simp only [video_destroy, hy, hY, hCb, hCr, texture_create, if_true, List.flatMap_cons,
        List.flatMap_nil, List.cons_append, List.nil_append, List.append_nil, released_by,
        acquired_by]
      refine List.Perm.cons _ ?_
      refine List.Perm.trans ?_ (@List.perm_append_comm _ [_, _, _] [_])
      exact List.Perm.cons _ (List.Perm.swap _ _ _)
    refine ⟨v, hv, hperm, ?_, hperm.length_eq, ?_, ?_, ?_⟩
    · simp [video_destroy, hy, hY, hCb, hCr, texture_create, released_by]
    · simp [video_destroy, hy, REALLOC]
    · rw [hcalls, List.flatMap_append, hr]
      simp [texture_create, released_by]
    · simp [video_destroy, hy, acquired_by]
  | true =>
    obtain ⟨v, hv, hy, _, htex, hsurf, _, _, _, tail, hn, _, _, hcalls⟩ :=
      video_packed E filename flags fresh plm hopen hb
    have ha := flatMap_neutral acquired_by tail (fun c hc => (hn c hc).1)
    have hr := flatMap_neutral released_by tail (fun c hc => (hn c hc).2)
    have hperm : List.Perm ((video_destroy v).flatMap released_by)
        ((video E filename flags fresh).2.flatMap acquired_by) := by
      rw [hcalls, List.flatMap_append, ha]
      simp only [video_destroy, hy, htex, hsurf, texture_create, REALLOC, if_false,
        Bool.false_eq_true, List.flatMap_cons, List.flatMap_nil, List.cons_append,
        List.nil_append, List.append_nil, released_by, acquired_by, if_true]
      split
      · simp only [if_true, List.nil_append, List.append_nil]
        refine List.Perm.cons _ ?_
        exact @List.perm_append_comm _ [_] [_]
      · simp only [Nat.add_one_ne_zero, if_false, List.cons_append, List.nil_append]
        refine List.Perm.cons _ ?_
        exact @List.perm_append_comm _ [_, _] [_]
    refine ⟨v, hv, hperm, ?_, hperm.length_eq, ?_, ?_, ?_⟩
    · by_cases hs : int_mul (int_mul (int_and (int_add plm.width 15) (int_not 15))
          (int_and (int_add plm.height 15) (int_not 15))) 3 = 0 <;>
        simp [video_destroy, hy, htex, hsurf, texture_create, REALLOC, released_by, hs]
    · simp [video_destroy, hy, REALLOC]
    · rw [hcalls, List.flatMap_append, hr]
      simp [texture_create, REALLOC, released_by]
    · simp [video_destroy, hy, REALLOC, acquired_by]

theorem video_destroy_step (E : Engine) (v : video_t) (op : Op) :
    video_destroy (step E v op) = video_destroy v := by
  cases op with
  | decode t =>
    cases hp : v.paused with
    | true => simp only [step, video_decode_paused E t v hp]; rfl
    | false => simp only [step, video_decode_unpaused E t v hp]; rfl
  | _ => rfl

theorem video_destroy_run (E : Engine) (ops : List Op) (v : video_t) :
    video_destroy (run E ops v).1 = video_destroy v := by
  induction ops generalizing v with
  | nil => rfl
  | cons op ops ih =>
    show video_destroy (run E ops (step E v op)).1 = video_destroy v
    rw [ih, video_destroy_step]

theorem deliver_acquires_nothing (E : Engine) (v : video_t) (e : plm_event) :
    (deliver E v e).flatMap acquired_by = [] := by
  cases e <;>
    simp only [deliver, mpeg_video_callback, mpeg_audio_callback, mpeg_update_texture] <;>
    repeat (first | rfl | split)

theorem deliver_releases_nothing (E : Engine) (v : video_t) (e : plm_event) :
    (deliver E v e).flatMap released_by = [] := by
  cases e <;>
    simp only [deliver, mpeg_video_callback, mpeg_audio_callback, mpeg_update_texture] <;>
    repeat (first | rfl | split)

theorem callbacks_acquire_nothing (E : Engine) (v : video_t) (es : List plm_event) :
    (es.flatMap (deliver E v)).flatMap acquired_by = [] := by
  induction es with
  | nil => rfl
  | cons e es ih =>
    rw [List.flatMap_cons, List.flatMap_append, deliver_acquires_nothing, ih]
    rfl

theorem callbacks_release_nothing (E : Engine) (v : video_t) (es : List plm_event) :
    (es.flatMap (deliver E v)).flatMap released_by = [] := by
  induction es with
  | nil => rfl
  | cons e es ih =>
    rw [List.flatMap_cons, List.flatMap_append, deliver_releases_nothing, ih]
    rfl

theorem step_calls_neutral (E : Engine) (v : video_t) (op : Op) :
    (step_calls E v op).flatMap acquired_by = [] ∧
    (step_calls E v op).flatMap released_by = [] := by
  cases op with
  | decode t =>
    cases hp : v.paused with
    | true =>
      simp only [step_calls, video_decode_paused E t v hp]
      exact ⟨rfl, rfl⟩
    | false =>
      simp only [step_calls, video_decode_unpaused E t v hp, List.flatMap_cons,
        callbacks_acquire_nothing, callbacks_release_nothing]
      exact ⟨rfl, rfl⟩
  | seek s =>
    simp only [step_calls, video_seek]
    constructor <;> repeat (first | rfl | split)
  | _ => exact ⟨rfl, rfl⟩

theorem run_calls_neutral (E : Engine) (ops : List Op) (v : video_t) :
    (run E ops v).2.flatMap acquired_by = [] ∧
    (run E ops v).2.flatMap released_by = [] := by
  induction ops generalizing v with
  | nil => exact ⟨rfl, rfl⟩
  | cons op ops ih =>
    show (step_calls E v op ++ (run E ops (step E v op)).2).flatMap acquired_by = [] ∧
      (step_calls E v op ++ (run E ops (step E v op)).2).flatMap released_by = []
    rw [List.flatMap_append, List.flatMap_append, (step_calls_neutral E v op).1,
      (step_calls_neutral E v op).2, (ih (step E v op)).1, (ih (step E v op)).2]
    exact ⟨rfl, rfl⟩

/-- C7: for every session that `video` built, in either color path, and after
any sequence `ops` of decode steps, pauses, seeks and queries on it, the
resources released by the calls of `video_destroy` are, up to order, exactly
the resources acquired by the calls of `video` (decoder handle, session block,
each created texture, and the surface when one was allocated), none of them
twice, so both counts agree; `plm_destroy` is called once; `video` releases
nothing, the calls in between neither acquire nor release anything, and
`video_destroy` acquires nothing; so over the whole life of the session the
releases are, up to order, the acquisitions. -/
theorem destroy_releases_what_video_acquired (E : Engine) (filename : String)
    (flags : Int) (fresh : Nat) (plm : plm_t) (ops : List Op)
    (hopen : E.plm_create_with_file filename = some plm) :
    ∃ v, (video E filename flags fresh).1 = some v ∧
      List.Perm ((video_destroy (run E ops v).1).flatMap released_by)
        ((video E filename flags fresh).2.flatMap acquired_by) ∧
      ((video_destroy (run E ops v).1).flatMap released_by).Nodup ∧
      ((video_destroy (run E ops v).1).flatMap released_by).length =
        ((video E filename flags fresh).2.flatMap acquired_by).length ∧
      (video_destroy (run E ops v).1).count Call.plm_destroy = 1 ∧
      (video E filename flags fresh).2.flatMap released_by = [] ∧
      (run E ops v).2.flatMap acquired_by = [] ∧
      (run E ops v).2.flatMap released_by = [] ∧
      (video_destroy (run E ops v).1).flatMap acquired_by = [] ∧
      List.Perm
        (((video E filename flags fresh).2 ++ (run E ops v).2 ++
          video_destroy (run E ops v).1).flatMap released_by)
        (((video E filename flags fresh).2 ++ (run E ops v).2 ++
          video_destroy (run E ops v).1).flatMap acquired_by) := by
  obtain ⟨v, hv, hperm, hnodup, hlen, hcount, hvr, hda⟩ :=
    destroy_fresh_session E filename flags fresh plm hopen
  have hrun := run_calls_neutral E ops v
  refine ⟨v, hv, ?_, ?_, ?_, ?_, hvr, hrun.1, hrun.2, ?_, ?_⟩
  · rw [video_destroy_run]; exact hperm
  · rw [video_destroy_run]; exact hnodup
  · rw [video_destroy_run]; exact hlen
  · rw [video_destroy_run]; exact hcount
  · rw [video_destroy_run]; exact hda
  · rw [video_destroy_run, List.flatMap_append, List.flatMap_append, List.flatMap_append,
      List.flatMap_append, hvr, hrun.1, hrun.2, hda]
    simpa using hperm

/-- Witness for C7: the demo file opened on the packed path and on the planar
path, stepped, paused, stepped while paused, sought, resumed and stepped
again, then destroyed: releases and acquisitions agree up to order. -/
theorem destroy_releases_what_video_acquired_witness :
    demo_engine.plm_create_with_file "clip.mpg" = some demo_plm ∧
    (∃ v, (video demo_engine "clip.mpg" 2 0).1 = some v ∧
      List.Perm
        ((video_destroy
          (run demo_engine [Op.decode 1, Op.pause true, Op.decode 2, Op.seek 5,
            Op.pause false, Op.decode 3] v).1).flatMap released_by)
        ((video demo_engine "clip.mpg" 2 0).2.flatMap acquired_by) ∧
      ((video_destroy
          (run demo_engine [Op.decode 1, Op.pause true, Op.decode 2, Op.seek 5,
            Op.pause false, Op.decode 3] v).1).flatMap released_by).Nodup) ∧
    (∃ v, (video demo_engine "clip.mpg" 0 0).1 = some v ∧
      List.Perm
        ((video_destroy
          (run demo_engine [Op.decode 1, Op.pause true, Op.decode 2, Op.seek 5,
            Op.pause false, Op.decode 3] v).1).flatMap released_by)
        ((video demo_engine "clip.mpg" 0 0).2.flatMap acquired_by) ∧
      ((video_destroy
          (run demo_engine [Op.decode 1, Op.pause true, Op.decode 2, Op.seek 5,
            Op.pause false, Op.decode 3] v).1).flatMap released_by).Nodup) := by
  refine ⟨rfl, ?_, ?_⟩
  · obtain ⟨v, hv, hperm, hnodup, _⟩ :=
      destroy_releases_what_video_acquired demo_engine "clip.mpg" 2 0 demo_plm
        [Op.decode 1, Op.pause true, Op.decode 2, Op.seek 5, Op.pause false, Op.decode 3] rfl
    exact ⟨v, hv, hperm, hnodup⟩
  · obtain ⟨v, hv, hperm, hnodup, _⟩ :=
      destroy_releases_what_video_acquired demo_engine "clip.mpg" 0 0 demo_plm
        [Op.decode 1, Op.pause true, Op.decode 2, Op.seek 5, Op.pause false, Op.decode 3] rfl
    exact ⟨v, hv, hperm, hnodup⟩

end VideoMpg
